import Mathlib

/-!
Verification development for the timekeep time-tracking tool.

The core is embedded shallowly:

* instants (`chrono::DateTime<Utc>`) are modelled as `Int` (a linear order
  with the same comparison behaviour as the source's instant type; the
  RFC3339 textual form written to storage is order-preserving and
  round-trips, so storage-level comparisons are modelled on the instants
  themselves);
* the filesystem slot file and the sqlite task table are modelled as an
  explicit `State` record threaded through the operations;
* fallible operations return `Except`, mirroring Rust's `Result` and the
  `?` operator's early return;
* the sqlite row-decoding layer (`extract_tasks_query`) is modelled
  separately over raw rows, so that decoding failures — including the
  panicking `.unwrap()` calls in the source — are visible in the model.
-/

namespace Timekeep

/-- Errors produced by the core operations (model of the `anyhow::Error`
values constructed in `tasks.rs`, `database.rs` and `cli.rs`). -/
inductive TKError where
  /-- Model of the "task cannot have end time ... before start time ..." error
  built in `CurrentTask::end_with_time`. -/
  | endBeforeStart (endTime startTime : Int)
  /-- Model of a serde deserialization failure in `CurrentTask::load`. -/
  | serializationError
  /-- Model of a filesystem error (missing file in `CurrentTask::load`). -/
  | ioError
  /-- Model of a sqlite failure propagated out of `database::append_task`. -/
  | storageError
  deriving DecidableEq, Repr

/-- Model of `tasks::CurrentTask`: a task which started but is still ongoing. -/
structure CurrentTask where
  project_name : String
  start_time : Int
  description : Option String
  deriving DecidableEq, Repr

/-- Model of `tasks::Task`: a finished task. -/
structure Task where
  project_name : String
  start_time : Int
  end_time : Int
  description : Option String
  deriving DecidableEq, Repr

/-- Model of `Task::new` (plain constructor, no validation). -/
def Task.new (project_name : String) (start_time end_time : Int)
    (description : Option String) : Task :=
  ⟨project_name, start_time, end_time, description⟩

/-- Model of `Task::duration`: `end_time - start_time`. -/
def Task.duration (t : Task) : Int :=
  t.end_time - t.start_time

/-- Model of `CurrentTask::new`. -/
def CurrentTask.new (project_name : String) (start_time : Int)
    (description : Option String) : CurrentTask :=
  ⟨project_name, start_time, description⟩

/-- Model of `CurrentTask::end_with_time`: fails when the requested end
time is strictly before the start time, otherwise builds the closed task. -/
def CurrentTask.end_with_time (self : CurrentTask) (time : Int) :
    Except TKError Task :=
  if time < self.start_time then
    Except.error (TKError.endBeforeStart time self.start_time)
  else
    Except.ok (Task.new self.project_name self.start_time time self.description)

/-- Model of `CurrentTask::end` / `Task::from(CurrentTask)`: closes the task
using the current instant (passed explicitly as `now`) as end time. -/
def CurrentTask.endNow (self : CurrentTask) (now : Int) : Task :=
  ⟨self.project_name, self.start_time, now, self.description⟩

/-- Model of the JSON document written to the current-task slot file.
Timestamps appear as their timezone-qualified RFC3339 text, which chrono
serializes and parses losslessly; the model keeps the instant itself in the
`timestamp` node. -/
inductive Json where
  | null : Json
  | str : String → Json
  | timestamp : Int → Json
  | obj : List (String × Json) → Json

/-- Model of the serde-derived serialization of `CurrentTask` (fields in
declaration order; a missing description serializes as JSON `null`). -/
def encodeCurrentTask (ct : CurrentTask) : Json :=
  Json.obj [("project_name", Json.str ct.project_name),
            ("start_time", Json.timestamp ct.start_time),
            ("description",
              match ct.description with
              | none => Json.null
              | some d => Json.str d)]

/-- Model of the serde-derived deserialization of `CurrentTask`. -/
def decodeCurrentTask : Json → Option CurrentTask
  | Json.obj [("project_name", Json.str p),
              ("start_time", Json.timestamp t),
              ("description", d)] =>
    match d with
    | Json.null => some ⟨p, t, none⟩
    | Json.str s => some ⟨p, t, some s⟩
    | _ => none
  | _ => none

/-- Persistent state visible to the core: the contents of the current-task
slot file (`none` = file absent) and the rows of the sqlite `tasks` table in
insertion order. -/
structure State where
  current_file : Option Json
  database : List Task

/-- Model of `CurrentTask::save`: serializes the task and overwrites the
slot file, returning the task for chaining. -/
def CurrentTask.save (self : CurrentTask) (s : State) : CurrentTask × State :=
  (self, { s with current_file := some (encodeCurrentTask self) })

/-- Model of `CurrentTask::load`: reading fails when the file is absent,
decoding fails when the contents are malformed. -/
def CurrentTask.load (contents : Option Json) : Except TKError CurrentTask :=
  match contents with
  | none => Except.error TKError.ioError
  | some j =>
    match decodeCurrentTask j with
    | some ct => Except.ok ct
    | none => Except.error TKError.serializationError

/-- Model of `database::append_task`: inserts one row at the end of the
`tasks` table (creating the table lazily is invisible at this level). The
`appendOk` flag models whether the underlying sqlite write succeeds. -/
def append_task (appendOk : Bool) (s : State) (task : Task) :
    Except TKError Unit × State :=
  if appendOk then
    (Except.ok (), { s with database := s.database ++ [task] })
  else
    (Except.error TKError.storageError, s)

/-- Model of `tasks::end_current_task`. Follows the source control flow:
missing slot file returns `none`; the slot is loaded and closed (with the
explicit end time, validated, or with `now`); unless `discard` is set the
closed task is appended to the database (a failure there propagates before
the slot file is removed); finally the slot file is removed. -/
def end_current_task (s : State) (end_time : Option Int) (discard : Bool)
    (now : Int) (appendOk : Bool) : Except TKError (Option Task) × State :=
  match s.current_file with
  | none => (Except.ok none, s)
  | some j =>
    match decodeCurrentTask j with
    | none => (Except.error TKError.serializationError, s)
    | some task =>
      let closed : Except TKError Task :=
        match end_time with
        | some t => task.end_with_time t
        | none => Except.ok (task.endNow now)
      match closed with
      | Except.error e => (Except.error e, s)
      | Except.ok task =>
        if discard then
          (Except.ok (some task), { s with current_file := none })
        else
          match append_task appendOk s task with
          | (Except.error e, s') => (Except.error e, s')
          | (Except.ok _, s') =>
            (Except.ok (some task), { s' with current_file := none })

/-- Model of `cli::add` (after the external date parsing collaborator has
produced instants): builds the closed task with `Task::new` and appends it
to the database. -/
def add (s : State) (project_name : String) (start_time end_time : Int)
    (description : Option String) (appendOk : Bool) :
    Except TKError Task × State :=
  let task := Task.new project_name start_time end_time description
  match append_task appendOk s task with
  | (Except.error e, s') => (Except.error e, s')
  | (Except.ok _, s') => (Except.ok task, s')

/-- Model of `database::extract_tasks`: the SQL
`WHERE start_time >= from AND start_time < to` clause over the stored
RFC3339 text, whose lexicographic order agrees with the instant order, so
the filter is expressed on the instants directly; rows come back in
storage (insertion) order. -/
def extract_tasks (db : List Task) (fromTime toTime : Int) : List Task :=
  db.filter (fun r => decide (fromTime ≤ r.start_time ∧ r.start_time < toTime))

/-- Model of `database::extract_all_tasks`: every row, insertion order. -/
def extract_all_tasks (db : List Task) : List Task :=
  db

/-- Model of a raw sqlite cell value as seen by rusqlite. -/
inductive SqlValue where
  | null : SqlValue
  | text : String → SqlValue
  | integer : Int → SqlValue
  deriving DecidableEq, Repr

/-- Model of a raw row of the `tasks` table before decoding. -/
structure RawRow where
  project_name : SqlValue
  start_time : SqlValue
  end_time : SqlValue
  description : SqlValue
  deriving DecidableEq, Repr

/-- Model of a rusqlite row-access error (`row.get(i)?` failing because the
column value has the wrong SQL type for the requested Rust type). -/
inductive RowError where
  | invalidColumnType (idx : Nat)
  deriving DecidableEq, Repr

/-- Model of `row.get::<_, String>(idx)?`: only a TEXT cell decodes. -/
def getText (idx : Nat) (v : SqlValue) : Except RowError String :=
  match v with
  | SqlValue.text s => Except.ok s
  | _ => Except.error (RowError.invalidColumnType idx)

/-- Model of `row.get::<_, Option<String>>(idx)?`: NULL or TEXT decodes. -/
def getOptText (idx : Nat) (v : SqlValue) : Except RowError (Option String) :=
  match v with
  | SqlValue.null => Except.ok none
  | SqlValue.text s => Except.ok (some s)
  | _ => Except.error (RowError.invalidColumnType idx)

/-- Decimal digit value of a character, `none` when it is not a digit. -/
def charDigit? (c : Char) : Option Nat :=
  if c.isDigit then some (c.toNat - '0'.toNat) else none

/-- Reads a run of decimal digits, failing at the first non-digit. -/
def parseDigitsAux : List Char → Nat → Option Nat
  | [], acc => some acc
  | c :: cs, acc =>
    match charDigit? c with
    | none => none
    | some d => parseDigitsAux cs (acc * 10 + d)

/-- Model of `database::parse_database_datetime`: parsing the stored
RFC3339 text back into an instant, failing on text that is not a valid
timestamp. The model uses the signed decimal rendering of the instant as
its canonical text, so exactly the canonical renderings parse. -/
def parse_database_datetime (s : String) : Option Int :=
  match s.data with
  | [] => none
  | '-' :: rest =>
    if rest.isEmpty then none
    else (parseDigitsAux rest 0).map (fun n => -(n : Int))
  | l => (parseDigitsAux l 0).map (fun n => (n : Int))

/-- Outcome of the row-mapping closure passed to `query_map` in
`extract_tasks_query`: a decoded task, a rusqlite error propagated by `?`,
or a panic from the `.unwrap()` on `parse_database_datetime`. -/
inductive RowOutcome where
  | ok : Task → RowOutcome
  | rowError : RowError → RowOutcome
  | panicked : RowOutcome
  deriving DecidableEq, Repr

/-- Model of the closure `|row| Ok(Task::new(row.get(0)?,
parse_database_datetime(row.get(1)?).unwrap(), ...))`, evaluating the
arguments left to right as Rust does. -/
def mapRow (row : RawRow) : RowOutcome :=
  match getText 0 row.project_name with
  | Except.error e => RowOutcome.rowError e
  | Except.ok name =>
    match getText 1 row.start_time with
    | Except.error e => RowOutcome.rowError e
    | Except.ok stText =>
      match parse_database_datetime stText with
      | none => RowOutcome.panicked
      | some st =>
        match getText 2 row.end_time with
        | Except.error e => RowOutcome.rowError e
        | Except.ok etText =>
          match parse_database_datetime etText with
          | none => RowOutcome.panicked
          | some et =>
            match getOptText 3 row.description with
            | Except.error e => RowOutcome.rowError e
            | Except.ok desc => RowOutcome.ok (Task.new name st et desc)

/-- Result of a whole query: the decoded rows, an error carrying every
row-decoding failure, or a panic aborting the program. -/
inductive QueryResult (α : Type) where
  | ok : α → QueryResult α
  | error : List RowError → QueryResult α
  | panicked : QueryResult α
  deriving DecidableEq, Repr

/-- Runs the row mapping over every row, keeping decoded tasks and
collected errors in encounter order; `none` means a row panicked. -/
def runRows : List RawRow → Option (List Task × List RowError)
  | [] => some ([], [])
  | r :: rs =>
    match mapRow r with
    | RowOutcome.panicked => none
    | RowOutcome.ok t =>
      (runRows rs).map (fun p => (t :: p.1, p.2))
    | RowOutcome.rowError e =>
      (runRows rs).map (fun p => (p.1, e :: p.2))

/-- Model of `database::extract_tasks_query`: rows whose `row.get` fails are
filtered out of the result while their errors are pushed onto `errors`;
afterwards a non-empty `errors` fails the whole query. A row whose
timestamp text does not parse panics instead (the `.unwrap()`). -/
def extract_tasks_query (rows : List RawRow) : QueryResult (List Task) :=
  match runRows rows with
  | none => QueryResult.panicked
  | some (tasks, errors) =>
    if errors.length > 0 then QueryResult.error errors
    else QueryResult.ok tasks

/-- Calendar date, modelling the date component of `chrono::Date<Utc>`
values built in `cli::view_filter_shortcut` (all of which sit at 00:00, so
the date determines the instant). -/
structure Date where
  year : Int
  month : Nat
  day : Nat
  deriving DecidableEq, Repr

/-- Model of chrono's proleptic-Gregorian leap-year rule. -/
def isLeapYear (y : Int) : Bool :=
  y % 4 == 0 && (y % 100 != 0 || y % 400 == 0)

/-- Number of days in a month of a given year. -/
def daysInMonth (year : Int) (month : Nat) : Nat :=
  if month = 2 then (if isLeapYear year then 29 else 28)
  else if month = 4 ∨ month = 6 ∨ month = 9 ∨ month = 11 then 30
  else 31

/-- Validity of a calendar date, as chrono's `with_*` setters check it. -/
def dateValid (d : Date) : Bool :=
  decide (1 ≤ d.month ∧ d.month ≤ 12 ∧ 1 ≤ d.day ∧ d.day ≤ daysInMonth d.year d.month)

/-- Model of chrono `Datelike::with_day`. -/
def Date.with_day (d : Date) (day : Nat) : Option Date :=
  let r : Date := { d with day := day }
  if dateValid r then some r else none

/-- Model of chrono `Datelike::with_month`. -/
def Date.with_month (d : Date) (month : Nat) : Option Date :=
  let r : Date := { d with month := month }
  if dateValid r then some r else none

/-- Model of chrono `Datelike::with_year`. -/
def Date.with_year (d : Date) (year : Int) : Option Date :=
  let r : Date := { d with year := year }
  if dateValid r then some r else none

/-- Model of the `ViewFilter::Month` branch of `cli::view_filter_shortcut`:
from today's date, take the first of the month, then the first of the next
month (rolling December over to January of the next year); the two dates
are the `[from, to)` window handed to `extract_tasks`. The source's
`.expect(...)` calls appear as `Option` propagation. -/
def monthFilterWindow (today : Date) : Option (Date × Date) :=
  match today.with_day 1 with
  | none => none
  | some first =>
    let last : Option Date :=
      if first.month = 12 then
        match first.with_year (today.year + 1) with
        | none => none
        | some f => f.with_month 1
      else
        first.with_month (first.month + 1)
    match last with
    | none => none
    | some last => some (first, last)

/-! Helper lemmas shared by several claim theorems. -/

/-- Decoding inverts encoding for the slot file serialization. -/
theorem decodeCurrentTask_encode (ct : CurrentTask) :
    decodeCurrentTask (encodeCurrentTask ct) = some ct := by
  obtain ⟨p, st, d⟩ := ct
  cases d <;> rfl

/-- Every month of the calendar has at least one day. -/
theorem one_le_daysInMonth (y : Int) (m : Nat) : 1 ≤ daysInMonth y m := by
  unfold daysInMonth
  split
  · split <;> omega
  · split <;> omega

/-- Filtering a list by two disjoint predicates that together cover a third
gives, up to permutation, the filter by the third predicate. -/
theorem filter_append_perm_of_partition {α : Type} (p q r : α → Bool) (l : List α)
    (hcover : ∀ x, r x = true ↔ (p x = true ∨ q x = true))
    (hdisj : ∀ x, ¬(p x = true ∧ q x = true)) :
    (l.filter p ++ l.filter q).Perm (l.filter r) := by
  induction l with
  | nil => simp
  | cons x xs ih =>
    rcases hpx : p x with _ | _ <;> rcases hqx : q x with _ | _
    · have hrx : r x = false := by
        rcases hrx : r x with _ | _
        · rfl
        · rcases (hcover x).mp hrx with h | h
          · rw [hpx] at h; exact absurd h (by simp)
          · rw [hqx] at h; exact absurd h (by simp)
      simpa [List.filter_cons, hpx, hqx, hrx] using ih
    · have hrx : r x = true := (hcover x).mpr (Or.inr hqx)
      simp only [List.filter_cons, hpx, hqx, hrx, if_true, if_false, Bool.false_eq_true]
      exact List.perm_middle.trans (ih.cons x)
    · have hrx : r x = true := (hcover x).mpr (Or.inl hpx)
      simp only [List.filter_cons, hpx, hqx, hrx, if_true, if_false, Bool.false_eq_true]
      exact ih.cons x
    · exact absurd ⟨hpx, hqx⟩ (hdisj x)

/-! Claim theorems. -/

/-- C9: saving any OpenTask (non-empty project name, any start instant, any
optional description) through the slot and loading it back yields a task
whose fields equal the original field for field. -/
theorem save_load_roundtrip (ct : CurrentTask) (s : State)
    (_hname : ct.project_name ≠ "") :
    CurrentTask.load ((CurrentTask.save ct s).2.current_file) = Except.ok ct := by
  simp [CurrentTask.save, CurrentTask.load, decodeCurrentTask_encode]

/-- Witness for C9 at a concrete open task. -/
theorem save_load_roundtrip_witness :
    ("acme" : String) ≠ "" ∧
    CurrentTask.load
        ((CurrentTask.save ⟨"acme", 5, some "demo"⟩ ⟨none, []⟩).2.current_file) =
      Except.ok ⟨"acme", 5, some "demo"⟩ :=
  ⟨by decide, save_load_roundtrip ⟨"acme", 5, some "demo"⟩ ⟨none, []⟩ (by decide)⟩

/-- C7: when no open-task record exists, `end_current_task` returns `none`
(success, not an error) and changes neither the slot nor the database. -/
theorem end_no_current_task (s : State) (end_time : Option Int)
    (discard appendOk : Bool) (now : Int) (h : s.current_file = none) :
    end_current_task s end_time discard now appendOk = (Except.ok none, s) := by
  simp [end_current_task, h]

/-- Witness for C7 at a concrete empty state. -/
theorem end_no_current_task_witness :
    (⟨none, [Task.new "p" 0 1 none]⟩ : State).current_file = none ∧
    end_current_task ⟨none, [Task.new "p" 0 1 none]⟩ (some 3) false 9 true =
      (Except.ok none, ⟨none, [Task.new "p" 0 1 none]⟩) :=
  ⟨rfl, end_no_current_task ⟨none, [Task.new "p" 0 1 none]⟩ (some 3) false true 9 rfl⟩

/-- C2 (counterexample): at the concrete input `end_time = 3 < 5 =
start_time`, `add` does not fail with a validation error and does not leave
the store unchanged — it succeeds and appends the ill-ordered task. -/
theorem add_end_before_start_cex :
    (3 : Int) < 5 ∧
    (add ⟨none, []⟩ "p" 5 3 none true).1 = Except.ok (Task.new "p" 5 3 none) ∧
    (add ⟨none, []⟩ "p" 5 3 none true).2.database = [Task.new "p" 5 3 none] :=
  ⟨by decide, rfl, rfl⟩

/-- C2 (amended): `add` performs no `end_time >= start_time` validation: for
every project name, start time, end time and optional description — also
when `end_time < start_time` — it builds the ClosedTask with `Task::new` and
appends it to the store, returning it. -/
theorem add_appends_without_validation (s : State) (project_name : String)
    (start_time end_time : Int) (description : Option String) :
    (add s project_name start_time end_time description true).1 =
      Except.ok (Task.new project_name start_time end_time description) ∧
    (add s project_name start_time end_time description true).2.database =
      s.database ++ [Task.new project_name start_time end_time description] := by
  constructor <;> rfl

/-- C3 (code evaluated at the failing input): a stored row whose
`start_time` column holds text that is not a parsable timestamp makes
`extract_tasks_query` panic (the `.unwrap()` on `parse_database_datetime`)
instead of returning the aggregated decode error the spec requires. -/
theorem extract_tasks_query_panics_on_corrupt_datetime :
    extract_tasks_query
        [⟨SqlValue.text "acme", SqlValue.text "garbage",
          SqlValue.text "2", SqlValue.null⟩] =
      QueryResult.panicked := by
  rfl

/-- C1: ending a persisted open task with an explicit end time strictly
before its start time fails with the end-before-start validation error and
leaves the slot record untouched (the file is not deleted and a subsequent
load still returns the original open task); ending with the end time equal
to the start time succeeds with a zero-duration closed task. -/
theorem end_validation (ct : CurrentTask) (s : State) (t now : Int)
    (discard appendOk : Bool)
    (hslot : s.current_file = some (encodeCurrentTask ct))
    (hlt : t < ct.start_time) :
    (end_current_task s (some t) discard now appendOk).1 =
      Except.error (TKError.endBeforeStart t ct.start_time) ∧
    (end_current_task s (some t) discard now appendOk).2 = s ∧
    CurrentTask.load
        (end_current_task s (some t) discard now appendOk).2.current_file =
      Except.ok ct ∧
    (end_current_task s (some ct.start_time) discard now true).1 =
      Except.ok (some (Task.new ct.project_name ct.start_time ct.start_time
        ct.description)) ∧
    Task.duration
        (Task.new ct.project_name ct.start_time ct.start_time ct.description) = 0 := by
  have herr : end_current_task s (some t) discard now appendOk =
      (Except.error (TKError.endBeforeStart t ct.start_time), s) := by
    simp [end_current_task, hslot, decodeCurrentTask_encode,
      CurrentTask.end_with_time, hlt]
  refine ⟨by rw [herr], by rw [herr], ?_, ?_, ?_⟩
  · rw [herr]
    simp [hslot, CurrentTask.load, decodeCurrentTask_encode]
  · cases discard <;>
      simp [end_current_task, hslot, decodeCurrentTask_encode,
        CurrentTask.end_with_time, append_task]
  · simp [Task.duration, Task.new]

/-- Witness for C1 at a concrete open task and end times. -/
theorem end_validation_witness :
    ((⟨some (encodeCurrentTask ⟨"acme", 5, none⟩), []⟩ : State).current_file =
        some (encodeCurrentTask ⟨"acme", 5, none⟩)) ∧
    (3 : Int) < 5 ∧
    ((end_current_task ⟨some (encodeCurrentTask ⟨"acme", 5, none⟩), []⟩
          (some 3) false 9 true).1 =
        Except.error (TKError.endBeforeStart 3 5) ∧
      (end_current_task ⟨some (encodeCurrentTask ⟨"acme", 5, none⟩), []⟩
          (some 3) false 9 true).2 =
        ⟨some (encodeCurrentTask ⟨"acme", 5, none⟩), []⟩ ∧
      CurrentTask.load
          (end_current_task ⟨some (encodeCurrentTask ⟨"acme", 5, none⟩), []⟩
            (some 3) false 9 true).2.current_file =
        Except.ok ⟨"acme", 5, none⟩ ∧
      (end_current_task ⟨some (encodeCurrentTask ⟨"acme", 5, none⟩), []⟩
          (some 5) false 9 true).1 =
        Except.ok (some (Task.new "acme" 5 5 none)) ∧
      Task.duration (Task.new "acme" 5 5 none) = 0) :=
  ⟨rfl, by decide,
    end_validation ⟨"acme", 5, none⟩ ⟨some (encodeCurrentTask ⟨"acme", 5, none⟩), []⟩
      3 9 false true rfl (by decide)⟩

/-- C6: a successful `end` of a persisted open task with a valid explicit
end time returns the closed task built from the open task's fields and the
supplied end time, deletes the slot record whether or not the end is a
discard, and appends the closed task to the store exactly when `discard` is
false. -/
theorem end_success (ct : CurrentTask) (s : State) (t now : Int)
    (discard : Bool)
    (hslot : s.current_file = some (encodeCurrentTask ct))
    (hvalid : ct.start_time ≤ t) :
    (end_current_task s (some t) discard now true).1 =
      Except.ok (some (Task.new ct.project_name ct.start_time t ct.description)) ∧
    (end_current_task s (some t) discard now true).2.current_file = none ∧
    (end_current_task s (some t) discard now true).2.database =
      (if discard then s.database
       else s.database ++ [Task.new ct.project_name ct.start_time t ct.description]) := by
  have hnotlt : ¬ t < ct.start_time := not_lt.mpr hvalid
  cases discard <;>
    simp [end_current_task, hslot, decodeCurrentTask_encode,
      CurrentTask.end_with_time, hnotlt, append_task]

/-- Witness for C6 at a concrete open task and end time. -/
theorem end_success_witness :
    ((⟨some (encodeCurrentTask ⟨"acme", 5, none⟩), []⟩ : State).current_file =
        some (encodeCurrentTask ⟨"acme", 5, none⟩)) ∧
    (5 : Int) ≤ 35 ∧
    ((end_current_task ⟨some (encodeCurrentTask ⟨"acme", 5, none⟩), []⟩
          (some 35) false 99 true).1 =
        Except.ok (some (Task.new "acme" 5 35 none)) ∧
      (end_current_task ⟨some (encodeCurrentTask ⟨"acme", 5, none⟩), []⟩
          (some 35) false 99 true).2.current_file = none ∧
      (end_current_task ⟨some (encodeCurrentTask ⟨"acme", 5, none⟩), []⟩
          (some 35) false 99 true).2.database =
        (if false then ([] : List Task) else [] ++ [Task.new "acme" 5 35 none])) :=
  ⟨rfl, by decide,
    end_success ⟨"acme", 5, none⟩ ⟨some (encodeCurrentTask ⟨"acme", 5, none⟩), []⟩
      35 99 false rfl (by decide)⟩

/-- C10: when appending the closed task to the store fails during a
non-discard `end`, the error is returned before the slot record is deleted:
the state is unchanged, the open task is still persisted and loadable, so
the operation can be retried. -/
theorem end_append_failure (ct : CurrentTask) (s : State)
    (end_time : Option Int) (now : Int)
    (hslot : s.current_file = some (encodeCurrentTask ct))
    (hvalid : ∀ t, end_time = some t → ct.start_time ≤ t) :
    (end_current_task s end_time false now false).1 =
      Except.error TKError.storageError ∧
    (end_current_task s end_time false now false).2 = s ∧
    CurrentTask.load
        (end_current_task s end_time false now false).2.current_file =
      Except.ok ct := by
  have hrun : end_current_task s end_time false now false =
      (Except.error TKError.storageError, s) := by
    cases end_time with
    | none =>
      simp [end_current_task, hslot, decodeCurrentTask_encode,
        CurrentTask.endNow, append_task]
    | some t =>
      have hnotlt : ¬ t < ct.start_time := not_lt.mpr (hvalid t rfl)
      simp [end_current_task, hslot, decodeCurrentTask_encode,
        CurrentTask.end_with_time, hnotlt, append_task]
  refine ⟨by rw [hrun], by rw [hrun], ?_⟩
  rw [hrun]
  simp [hslot, CurrentTask.load, decodeCurrentTask_encode]

/-- Witness for C10 at a concrete open task and end time. -/
theorem end_append_failure_witness :
    ((⟨some (encodeCurrentTask ⟨"acme", 5, none⟩), []⟩ : State).current_file =
        some (encodeCurrentTask ⟨"acme", 5, none⟩)) ∧
    ((end_current_task ⟨some (encodeCurrentTask ⟨"acme", 5, none⟩), []⟩
          (some 35) false 99 false).1 =
        Except.error TKError.storageError ∧
      (end_current_task ⟨some (encodeCurrentTask ⟨"acme", 5, none⟩), []⟩
          (some 35) false 99 false).2 =
        ⟨some (encodeCurrentTask ⟨"acme", 5, none⟩), []⟩ ∧
      CurrentTask.load
          (end_current_task ⟨some (encodeCurrentTask ⟨"acme", 5, none⟩), []⟩
            (some 35) false 99 false).2.current_file =
        Except.ok ⟨"acme", 5, none⟩) :=
  ⟨rfl,
    end_append_failure ⟨"acme", 5, none⟩
      ⟨some (encodeCurrentTask ⟨"acme", 5, none⟩), []⟩ (some 35) 99 rfl
      (by intro t ht; cases ht; decide)⟩

/-- C4: `extract_tasks` returns exactly the stored records whose start time
lies in the half-open window `[fromTime, toTime)`: the result is a sublist
of the store (storage order preserved) and every task occurs in it with its
full multiplicity when its start time is in the window and not at all
otherwise. -/
theorem extract_tasks_range_spec (db : List Task) (fromTime toTime : Int) :
    (extract_tasks db fromTime toTime).Sublist db ∧
    ∀ r : Task, (extract_tasks db fromTime toTime).count r =
      (if fromTime ≤ r.start_time ∧ r.start_time < toTime then db.count r else 0) := by
  constructor
  · exact List.filter_sublist db
  · intro r
    by_cases h : fromTime ≤ r.start_time ∧ r.start_time < toTime
    · rw [if_pos h]
      exact List.count_filter (decide_eq_true h)
    · rw [if_neg h]
      rw [List.count_eq_zero]
      intro hmem
      exact h (of_decide_eq_true (List.mem_filter.mp hmem).2)

/-- C5: for `a <= b <= c` the records of the adjoining half-open windows
`[a, b)` and `[b, c)` together form, as a multiset, exactly the records of
`[a, c)`: nothing is double-counted or dropped. -/
theorem extract_tasks_tiling (db : List Task) (a b c : Int)
    (hab : a ≤ b) (hbc : b ≤ c) :
    ((extract_tasks db a b : Multiset Task) + (extract_tasks db b c : Multiset Task)) =
      (extract_tasks db a c : Multiset Task) := by
  rw [Multiset.coe_add, Multiset.coe_eq_coe]
  apply filter_append_perm_of_partition
  · intro x
    simp only [decide_eq_true_eq]
    omega
  · intro x
    simp only [decide_eq_true_eq]
    omega

/-- Witness for C5 on a concrete store and window bounds. -/
theorem extract_tasks_tiling_witness :
    (0 : Int) ≤ 2 ∧ (2 : Int) ≤ 3 ∧
    ((extract_tasks [Task.new "p" 0 1 none, Task.new "q" 2 9 none,
          Task.new "p" 0 1 none] 0 2 : Multiset Task) +
        (extract_tasks [Task.new "p" 0 1 none, Task.new "q" 2 9 none,
          Task.new "p" 0 1 none] 2 3 : Multiset Task)) =
      (extract_tasks [Task.new "p" 0 1 none, Task.new "q" 2 9 none,
        Task.new "p" 0 1 none] 0 3 : Multiset Task) :=
  ⟨by decide, by decide,
    extract_tasks_tiling
      [Task.new "p" 0 1 none, Task.new "q" 2 9 none, Task.new "p" 0 1 none]
      0 2 3 (by decide) (by decide)⟩

/-- C8: on any valid current day the Month view filter resolves to the
half-open window from the first of the current month; in December the `to`
bound is January 1 of the following year — its year exactly one greater
than the `from` bound's year — and in any other month `m` the `to` bound is
the first of month `m + 1` of the same year. -/
theorem month_window_spec (today : Date) (hvalid : dateValid today = true) :
    ∃ w : Date × Date,
      monthFilterWindow today = some w ∧
      w.1 = ⟨today.year, today.month, 1⟩ ∧
      (today.month = 12 →
        w.2 = ⟨today.year + 1, 1, 1⟩ ∧ w.2.year = w.1.year + 1) ∧
      (today.month ≠ 12 → w.2 = ⟨today.year, today.month + 1, 1⟩) := by
  obtain ⟨y, m, d⟩ := today
  simp only [dateValid, decide_eq_true_eq] at hvalid
  obtain ⟨hm1, hm12, _, _⟩ := hvalid
  have hfirst : Date.with_day ⟨y, m, d⟩ 1 = some ⟨y, m, 1⟩ := by
    rw [Date.with_day, if_pos]
    simp only [dateValid, decide_eq_true_eq]
    exact ⟨hm1, hm12, le_refl 1, one_le_daysInMonth y m⟩
  by_cases h12 : m = 12
  · subst h12
    refine ⟨(⟨y, 12, 1⟩, ⟨y + 1, 1, 1⟩), ?_, rfl, fun _ => ⟨rfl, rfl⟩, fun h => absurd rfl h⟩
    rw [monthFilterWindow, hfirst]
    have hyear : Date.with_year ⟨y, 12, 1⟩ (y + 1) = some ⟨y + 1, 12, 1⟩ := by
      rw [Date.with_year, if_pos]
      simp only [dateValid, decide_eq_true_eq]
      exact ⟨by omega, by omega, le_refl 1, one_le_daysInMonth (y + 1) 12⟩
    have hmonth : Date.with_month ⟨y + 1, 12, 1⟩ 1 = some ⟨y + 1, 1, 1⟩ := by
      rw [Date.with_month, if_pos]
      simp only [dateValid, decide_eq_true_eq]
      exact ⟨le_refl 1, by omega, le_refl 1, one_le_daysInMonth (y + 1) 1⟩
    simp [hyear, hmonth]
  · refine ⟨(⟨y, m, 1⟩, ⟨y, m + 1, 1⟩), ?_, rfl, fun h => absurd h h12, fun _ => rfl⟩
    rw [monthFilterWindow, hfirst]
    have hmonth : Date.with_month ⟨y, m, 1⟩ (m + 1) = some ⟨y, m + 1, 1⟩ := by
      rw [Date.with_month, if_pos]
      simp only [dateValid, decide_eq_true_eq]
      exact ⟨by omega, by omega, le_refl 1, one_le_daysInMonth y (m + 1)⟩
    simp [h12, hmonth]

/-- Witness for C8 at a concrete December day (and the rollover year). -/
theorem month_window_spec_witness :
    dateValid ⟨2022, 12, 15⟩ = true ∧
    (∃ w : Date × Date,
      monthFilterWindow ⟨2022, 12, 15⟩ = some w ∧
      w.1 = ⟨2022, 12, 1⟩ ∧
      ((12 : Nat) = 12 → w.2 = ⟨2022 + 1, 1, 1⟩ ∧ w.2.year = w.1.year + 1) ∧
      ((12 : Nat) ≠ 12 → w.2 = ⟨2022, 12 + 1, 1⟩)) :=
  ⟨by decide, month_window_spec ⟨2022, 12, 15⟩ (by decide)⟩

end Timekeep
